import Mathlib

/-!
Verification development for the WRF-CMAQ preprocessor (wrfcmaq.go).

The file embeds the derived-field combinators, the categorical land-use
remappers, the static lookup tables and the constructor of the preprocessor
as Lean definitions, and proves the stated properties about them.

Conventions of the embedding:
* float64 values are modelled as elements of an arbitrary field, instantiated
  at the real numbers in the theorems;
* a Go function value of type NextData is observed through one pull; the
  result of pulling an upstream producer is a value of
  Except String (DenseArray α) (the Go pair (grid, error));
* a Go runtime panic (an index out of range) aborts the pull without
  producing any result or error value; it is modelled by the value none of
  an outer Option layer, while a returned error is some (Except.error e).
-/

set_option autoImplicit false

/-- Model of sparse.DenseArray of the external sparse library: an
n-dimensional array stored as a shape and a flat row-major element list.
Modelled from the spec: a Grid is an n-dimensional array of floating-point
values. -/
structure DenseArray (α : Type) where
  shape : List Nat
  elements : List α

/-- Row-major flattened index, as computed by the sparse library for
DenseArray.Get and DenseArray.Set: each index digit is multiplied by the
product of the remaining extents. -/
def flatIndex : List Nat → List Nat → Nat
  | _, [] => 0
  | [], _ :: _ => 0
  | _ :: ss, i :: rest => i * ss.prod + flatIndex ss rest

/-- Bounds test for a multi-index: same rank as the shape and each index
digit below its extent. -/
def idxInBounds (shape idx : List Nat) : Bool :=
  decide (idx.length = shape.length) &&
    (idx.zip shape).all fun q => decide (q.1 < q.2)

/-- Model of DenseArray.Get: a rank mismatch or an out-of-bounds index is a
runtime panic (none); otherwise the row-major element is read. Modelled from
the spec: the Grid accessors of the external sparse library. -/
def DenseArray.get? {α : Type} (a : DenseArray α) (idx : List Nat) : Option α :=
  if idxInBounds a.shape idx then a.elements.get? (flatIndex a.shape idx) else none

/-- Model of sparse.ZerosDense: a zero-filled array of the given shape. -/
def ZerosDense {α : Type} [Zero α] (shape : List Nat) : DenseArray α :=
  ⟨shape, List.replicate shape.prod 0⟩

/-- Model of sparse DenseArray.AddDense, which the pressure and radiation
combinators use: it fails on mismatched shapes before adding, and otherwise
adds elementwise in place. Modelled from the spec: all combinators fail with
a shape-mismatch error if upstream grids differ in shape, checked before
applying the elementwise function. -/
def AddDense {α : Type} [Add α] (A B : DenseArray α) : Option (DenseArray α) :=
  if A.shape = B.shape then
    some ⟨A.shape, A.elements.zipWith (· + ·) B.elements⟩
  else none

/-- A grid is well formed when its element count matches its shape, as holds
for every grid produced by ZerosDense or read from a file. -/
def DenseArray.WellFormed {α : Type} (a : DenseArray α) : Prop :=
  a.elements.length = a.shape.prod

/-- Model of a Go slice store dst[i] = v: an index at or beyond the length
panics (none). -/
def setAt {α : Type} (dst : List α) (i : Nat) (v : α) : Option (List α) :=
  if i < dst.length then some (dst.set i v) else none

/-- Model of the Go loop `for i, x := range src { dst[i] = body(i, x) }`
where evaluating the body may panic (none). -/
def forRangeSet {α : Type} (body : Nat → α → Option α) :
    Nat → List α → List α → Option (List α)
  | _, [], dst => some dst
  | i, x :: xs, dst =>
    (body i x).bind fun v =>
      (setAt dst i v).bind fun dst' => forRangeSet body (i + 1) xs dst'

/-- Model of Go slice indexing l[i] with an int index: negative or too-large
indices panic (none). -/
def intIndex {β : Type} (l : List β) (i : Int) : Option β :=
  if 0 ≤ i then l.get? i.toNat else none

section ListLemmas

variable {α : Type} {β : Type} {γ : Type}

theorem take_of_set (l : List α) (i n : Nat) (v : α) (h : n ≤ i) :
    (l.set i v).take n = l.take n := by
  induction l generalizing i n with
  | nil => simp
  | cons a t ih =>
    cases n with
    | zero => simp
    | succ n =>
      cases i with
      | zero => omega
      | succ i =>
        simp only [List.set_cons_succ, List.take_succ_cons]
        rw [ih i n (by omega)]

theorem drop_of_set (l : List α) (i n : Nat) (v : α) (h : i < n) :
    (l.set i v).drop n = l.drop n := by
  induction l generalizing i n with
  | nil => simp
  | cons a t ih =>
    cases n with
    | zero => omega
    | succ n =>
      cases i with
      | zero => simp
      | succ i =>
        simp only [List.set_cons_succ, List.drop_succ_cons]
        exact ih i n (by omega)

theorem take_succ_set (l : List α) (i : Nat) (v : α) (h : i < l.length) :
    (l.set i v).take (i + 1) = l.take i ++ [v] := by
  induction l generalizing i with
  | nil => simp at h
  | cons a t ih =>
    cases i with
    | zero => simp
    | succ i =>
      simp only [List.set_cons_succ, List.take_succ_cons]
      rw [ih i (by simpa using h)]
      simp

theorem get?_mapIdx (f : Nat → α → β) :
    ∀ (l : List α) (i : Nat), (l.mapIdx f).get? i = (l.get? i).map (f i) := by
  intro l
  induction l generalizing f with
  | nil => intro i; simp
  | cons a t ih =>
    intro i
    rw [List.mapIdx_cons]
    cases i with
    | zero => simp
    | succ i => simpa using ih (fun j => f (j + 1)) i

theorem get?_zipWith_some (f : α → β → γ) :
    ∀ (l₁ : List α) (l₂ : List β) (k : Nat) (a : α) (b : β),
      l₁.get? k = some a → l₂.get? k = some b →
      (List.zipWith f l₁ l₂).get? k = some (f a b) := by
  intro l₁
  induction l₁ with
  | nil => intro l₂ k a b h; simp at h
  | cons x t ih =>
    intro l₂ k a b h₁ h₂
    cases l₂ with
    | nil => simp at h₂
    | cons y t₂ =>
      cases k with
      | zero =>
        simp only [List.get?] at h₁ h₂
        cases h₁; cases h₂
        rfl
      | succ k =>
        simp only [List.get?] at h₁ h₂
        simpa [List.zipWith_cons_cons] using ih t₂ k a b h₁ h₂

theorem mapM_eq_some_map (f : α → Option β) (F : α → β) :
    ∀ l : List α, (∀ a ∈ l, f a = some (F a)) → l.mapM f = some (l.map F) := by
  intro l
  induction l with
  | nil => intro _; rfl
  | cons a t ih =>
    intro h
    rw [List.mapM_cons, h a (by simp), ih (fun b hb => h b (by simp [hb]))]
    rfl

theorem mapM_eq_none (f : α → Option β) :
    ∀ (l : List α) (a : α), a ∈ l → f a = none → l.mapM f = none := by
  intro l
  induction l with
  | nil => intro a h; simp at h
  | cons b t ih =>
    intro a ha hfa
    rw [List.mapM_cons]
    rcases List.mem_cons.mp ha with h | h
    · subst h; rw [hfa]; rfl
    · cases hfb : f b with
      | none => rfl
      | some v => rw [ih a h hfa]; rfl

theorem join_length_of_uniform (w : Nat) :
    ∀ rows : List (List β), (∀ r ∈ rows, r.length = w) →
      rows.join.length = rows.length * w := by
  intro rows
  induction rows with
  | nil => intro _; simp
  | cons r t ih =>
    intro h
    simp only [List.join_cons, List.length_append, List.length_cons]
    rw [h r (by simp), ih (fun s hs => h s (by simp [hs]))]
    ring

theorem join_get?_of_uniform (w : Nat) :
    ∀ rows : List (List β), (∀ r ∈ rows, r.length = w) →
      ∀ j i : Nat, i < w →
        rows.join.get? (j * w + i) = (rows.get? j).bind fun r => r.get? i := by
  intro rows
  induction rows with
  | nil => intro _ j i _; simp
  | cons r t ih =>
    intro h j i hi
    have hr : r.length = w := h r (by simp)
    cases j with
    | zero =>
      simp only [List.join_cons, Nat.zero_mul, Nat.zero_add]
      rw [List.get?_append (by omega)]
      simp
    | succ j =>
      simp only [List.join_cons]
      have hidx : (j + 1) * w + i = r.length + (j * w + i) := by
        rw [hr]; ring
      rw [hidx, List.get?_append_right (by omega)]
      have : r.length + (j * w + i) - r.length = j * w + i := by omega
      rw [this, ih (fun s hs => h s (by simp [hs])) j i hi]
      simp

end ListLemmas

/-- Modelled from the spec: the gravitational acceleration constant g [m/s2]
(defined in this repository outside src/), used by the layer-height
computation; value 9.80665. -/
def g {α : Type} [Field α] : α := 980665 / 100000

/-- Model of thetaPerturbToTemperature (wrfcmaq.go): converts perturbation
potential temperature [K] to ambient temperature for pressure p [Pa] via
theta = thetaPerturb + 300 and T = theta * (p / po) ^ kappa with
po = 101300 and kappa = 0.2854. The Go standard library power function
math.Pow is external and is passed in as the parameter pow. -/
def thetaPerturbToTemperature {α : Type} [Field α] (pow : α → α → α)
    (thetaPerturb p : α) : α :=
  let po : α := 101300
  let kappa : α := 2854 / 10000
  let pressureCorrection := pow (p / po) kappa
  let θ := thetaPerturb + 300
  θ * pressureCorrection

/-- Model of the elementwise loop of cmaqTemperatureConvert (wrfcmaq.go):
T starts as ZerosDense of the θ grid's shape and, for every index i of the
θ grid's element slice, T.Elements[i] is assigned
thetaPerturbToTemperature(tp, p.Elements[i]); reading p.Elements[i] out of
range is a runtime panic (none). No shape comparison is performed. -/
def cmaqTemperatureGrid {α : Type} [Field α] (pow : α → α → α)
    (thetaPerturb p : DenseArray α) : Option (DenseArray α) :=
  let T : DenseArray α := ZerosDense thetaPerturb.shape
  (forRangeSet
      (fun i tp => (p.elements.get? i).map fun pe =>
        thetaPerturbToTemperature pow tp pe)
      0 thetaPerturb.elements T.elements).map
    fun es => ⟨thetaPerturb.shape, es⟩

/-- Model of one pull of cmaqTemperatureConvert (wrfcmaq.go): the upstream θ
producer is pulled first and an error from it is returned as is with no
grid; then the upstream pressure producer likewise; then the elementwise
conversion runs. -/
def cmaqTemperatureConvert {α : Type} [Field α] (pow : α → α → α)
    (thetaRes pRes : Except String (DenseArray α)) :
    Option (Except String (DenseArray α)) :=
  match thetaRes with
  | .error err => some (.error err)
  | .ok thetaPerturb =>
    match pRes with
    | .error err => some (.error err)
    | .ok p => (cmaqTemperatureGrid pow thetaPerturb p).map Except.ok

/-- Model of one pull of cmaqPressureConvert (wrfcmaq.go): the baseline
pressure producer pbFunc is pulled first, then the perturbation producer
pFunc, each propagating its error; then P := pb.Copy(); P.AddDense(p). -/
def cmaqPressureConvert {α : Type} [Field α]
    (pRes pbRes : Except String (DenseArray α)) :
    Option (Except String (DenseArray α)) :=
  match pbRes with
  | .error err => some (.error err)
  | .ok pb =>
    match pRes with
    | .error err => some (.error err)
    | .ok p => (AddDense pb p).map Except.ok

/-- Model of one pull of cmaqRadiationDown (wrfcmaq.go): the shortwave
producer is pulled first, then the longwave producer, each propagating its
error; then rad := swDown.Copy(); rad.AddDense(glw). -/
def cmaqRadiationDown {α : Type} [Field α]
    (swDownRes glwRes : Except String (DenseArray α)) :
    Option (Except String (DenseArray α)) :=
  match swDownRes with
  | .error err => some (.error err)
  | .ok swDown =>
    match glwRes with
    | .error err => some (.error err)
    | .ok glw => (AddDense swDown glw).map Except.ok

/-- Model of geopotentialToHeight (wrfcmaq.go): triple loop over
k < ph.Shape[0], j < ph.Shape[1], i < ph.Shape[2] computing
(ph(k,j,i) + phb(k,j,i) - ph(0,j,i) - phb(0,j,i)) / g into a grid of ph's
shape; any out-of-range access panics (none). No shape comparison between
ph and phb is performed. -/
def geopotentialToHeight {α : Type} [Field α] (ph phb : DenseArray α) :
    Option (DenseArray α) :=
  (ph.shape.get? 0).bind fun s0 =>
  (ph.shape.get? 1).bind fun s1 =>
  (ph.shape.get? 2).bind fun s2 =>
  ((List.range s0).mapM fun k =>
    (List.range s1).mapM fun j =>
      (List.range s2).mapM fun i =>
        (ph.get? [k, j, i]).bind fun a =>
        (phb.get? [k, j, i]).bind fun b =>
        (ph.get? [0, j, i]).bind fun c =>
        (phb.get? [0, j, i]).bind fun d =>
        some ((a + b - c - d) / g)).bind fun rows =>
  some ⟨ph.shape, (rows.map List.join).join⟩

/-- Model of one pull of the closure returned by WRFCmaq.Height
(wrfcmaq.go): PH is pulled first, then PHB, each propagating its error with
a nil grid; then geopotentialToHeight runs. -/
def WRFCmaqHeight {α : Type} [Field α]
    (phRes phbRes : Except String (DenseArray α)) :
    Option (Except String (DenseArray α)) :=
  match phRes with
  | .error err => some (.error err)
  | .ok ph =>
    match phbRes with
    | .error err => some (.error err)
    | .ok phb => (geopotentialToHeight ph phb).map Except.ok

/-- Modelled from the spec: the particle dry-deposition land-use category
type of the external package github.com/ctessum/atmos/seinfeld (an
integer-valued enumeration; the numeric values of the constants are static
data of that package and no claim depends on them). -/
inductive SeinfeldCategory
  | Evergreen
  | Deciduous
  | Grass
  | Desert
  | Shrubs
deriving DecidableEq

/-- Modelled from the spec: the integer value of a seinfeld category, as
produced by the Go conversion float64(category). -/
def SeinfeldCategory.val : SeinfeldCategory → Nat
  | .Evergreen => 0
  | .Deciduous => 1
  | .Grass => 2
  | .Desert => 3
  | .Shrubs => 4

/-- Modelled from the spec: the gas dry-deposition land-use category type of
the external package github.com/ctessum/atmos/wesely1989. -/
inductive WeselyCategory
  | Urban
  | Agricultural
  | Range
  | Deciduous
  | Coniferous
  | MixedForest
  | Water
  | Barren
  | Wetland
  | RangeAg
  | RockyShrubs
deriving DecidableEq

/-- Modelled from the spec: the integer value of a wesely1989 category, as
produced by the Go conversion float64(category). -/
def WeselyCategory.val : WeselyCategory → Nat
  | .Urban => 0
  | .Agricultural => 1
  | .Range => 2
  | .Deciduous => 3
  | .Coniferous => 4
  | .MixedForest => 5
  | .Water => 6
  | .Barren => 7
  | .Wetland => 8
  | .RangeAg => 9
  | .RockyShrubs => 10

/-- NLCDseinfeld (wrfcmaq.go): lookup table from USGS land classes to land
classes for particle dry deposition, in source order. -/
def NLCDseinfeld : List SeinfeldCategory :=
  [.Evergreen, .Deciduous, .Evergreen, .Deciduous, .Deciduous,
   .Shrubs, .Shrubs, .Shrubs, .Grass, .Grass,
   .Grass, .Grass, .Desert, .Grass, .Desert,
   .Desert, .Desert, .Desert, .Desert, .Desert,
   .Desert, .Desert, .Desert, .Desert, .Desert,
   .Desert, .Desert, .Deciduous, .Evergreen, .Deciduous,
   .Shrubs, .Shrubs, .Grass, .Grass, .Desert,
   .Desert, .Grass, .Grass, .Deciduous, .Grass]

/-- NLCDwesely (wrfcmaq.go): lookup table from NLCD land classes to land
classes for gas dry deposition, in source order. -/
def NLCDwesely : List WeselyCategory :=
  [.Coniferous, .Deciduous, .Coniferous, .Deciduous, .MixedForest,
   .RockyShrubs, .RockyShrubs, .RockyShrubs, .Range, .Range,
   .Wetland, .RangeAg, .Urban, .RangeAg, .Barren,
   .Barren, .Water, .Barren, .Barren, .Barren,
   .Water, .Barren, .Urban, .Urban, .Urban,
   .Urban, .Barren, .Deciduous, .Coniferous, .MixedForest,
   .RockyShrubs, .RockyShrubs, .Range, .Range, .Barren,
   .Barren, .RangeAg, .RangeAg, .Wetland, .Wetland]

/-- NLCDz0 (wrfcmaq.go): mean roughness lengths [m] for NLCD land classes,
in source order (decimal float literals written as rationals). -/
def NLCDz0 : List ℚ :=
  [50/100, 50/100, 50/100, 50/100, 35/100, 3/100, 35/1000, 3/100, 15/100, 11/100,
   30/100, 10/100, 50/100, 95/1000, 1/1000, 1/100, 1/10000, 999, 999, 999,
   1/10000, 1/1000, 50/100, 70/100, 15/10, 2, 1/100, 50/100, 50/100, 35/100,
   25/1000, 3/100, 11/100, 20/100, 1/100, 1/100, 10/100, 6/100, 40/100, 20/100]

/-- Modelled from the spec: f2i (defined in this repository outside src/)
converts a float-valued land-use cell to its integer category code; the spec
describes land-use grids as integer-coded, 1-based. It is modelled as the Go
expression int(f + 0.5), truncation toward zero of f + 1/2, which is the
identity on nonnegative integer-valued cells. -/
def f2i {α : Type} [LinearOrderedField α] [FloorRing α] (x : α) : Int :=
  if 0 ≤ x + 1 / 2 then ⌊x + 1 / 2⌋ else ⌈x + 1 / 2⌉

/-- Model of the nested grid loop of cmaqSeinfeldLandUse (wrfcmaq.go): for
every j < lu.Shape[0] and i < lu.Shape[1] the cell
float64(NLCDseinfeld[f2i(lu.Get(j,i)) - 1]) is stored at (j,i) in a grid of
lu's shape; a missing shape entry, an out-of-range cell access, or an
out-of-range table index panics (none). -/
def cmaqSeinfeldGrid {α : Type} [LinearOrderedField α] [FloorRing α]
    (lu : DenseArray α) : Option (DenseArray α) :=
  (lu.shape.get? 0).bind fun s0 =>
  (lu.shape.get? 1).bind fun s1 =>
  ((List.range s0).mapM fun j =>
    (List.range s1).mapM fun i =>
      (lu.get? [j, i]).bind fun code =>
      (intIndex NLCDseinfeld (f2i code - 1)).bind fun cat =>
      some ((cat.val : α))).bind fun rows =>
  some ⟨lu.shape, rows.join⟩

/-- Model of one pull of cmaqSeinfeldLandUse (wrfcmaq.go): an error from the
upstream LU_INDEX producer is returned as is with no grid; then the remap
loop runs. -/
def cmaqSeinfeldLandUse {α : Type} [LinearOrderedField α] [FloorRing α]
    (luRes : Except String (DenseArray α)) :
    Option (Except String (DenseArray α)) :=
  match luRes with
  | .error err => some (.error err)
  | .ok lu => (cmaqSeinfeldGrid lu).map Except.ok

/-- Model of the nested grid loop of cmaqWeselyLandUse (wrfcmaq.go), exactly
as cmaqSeinfeldGrid but through the NLCDwesely table. -/
def cmaqWeselyGrid {α : Type} [LinearOrderedField α] [FloorRing α]
    (lu : DenseArray α) : Option (DenseArray α) :=
  (lu.shape.get? 0).bind fun s0 =>
  (lu.shape.get? 1).bind fun s1 =>
  ((List.range s0).mapM fun j =>
    (List.range s1).mapM fun i =>
      (lu.get? [j, i]).bind fun code =>
      (intIndex NLCDwesely (f2i code - 1)).bind fun cat =>
      some ((cat.val : α))).bind fun rows =>
  some ⟨lu.shape, rows.join⟩

/-- Model of one pull of cmaqWeselyLandUse (wrfcmaq.go). -/
def cmaqWeselyLandUse {α : Type} [LinearOrderedField α] [FloorRing α]
    (luRes : Except String (DenseArray α)) :
    Option (Except String (DenseArray α)) :=
  match luRes with
  | .error err => some (.error err)
  | .ok lu => (cmaqWeselyGrid lu).map Except.ok

/-- Model of the flat element loop of cmaqZ0 (wrfcmaq.go): zo starts as
ZerosDense of the LU grid's shape and zo.Elements[i] is assigned
NLCDz0[f2i(lu) - 1] for every element lu of the LU grid; an out-of-range
table index panics (none). -/
def cmaqZ0Grid {α : Type} [LinearOrderedField α] [FloorRing α]
    (luIndex : DenseArray α) : Option (DenseArray α) :=
  let zo : DenseArray α := ZerosDense luIndex.shape
  (forRangeSet
      (fun _i lu => (intIndex NLCDz0 (f2i lu - 1)).map fun z => ((z : ℚ) : α))
      0 luIndex.elements zo.elements).map
    fun es => ⟨luIndex.shape, es⟩

/-- Model of one pull of cmaqZ0 (wrfcmaq.go). -/
def cmaqZ0 {α : Type} [LinearOrderedField α] [FloorRing α]
    (luRes : Except String (DenseArray α)) :
    Option (Except String (DenseArray α)) :=
  match luRes with
  | .error err => some (.error err)
  | .ok luIndex => (cmaqZ0Grid luIndex).map Except.ok

/-- Digits of a character list read as a base-10 natural number. -/
def digitsToNat (cs : List Char) : Nat :=
  cs.foldl (fun n c => n * 10 + (c.toNat - 48)) 0

/-- Gregorian leap-year test. -/
def isLeapYear (y : Nat) : Bool :=
  y % 4 == 0 && (y % 100 != 0 || y % 400 == 0)

/-- Number of days of month m of year y. -/
def daysInMonth (y m : Nat) : Nat :=
  if m = 2 then (if isLeapYear y then 29 else 28)
  else if m = 4 ∨ m = 6 ∨ m = 9 ∨ m = 11 then 30
  else 31

/-- Modelled from the spec: parsing a start or end date with the Go time
package against inDateFormat (both defined outside src/); the spec gives the
format as an 8-digit date string YYYYMMDD, and parsing succeeds exactly on
8-digit strings that form a valid calendar date. -/
def parse8DigitDate (s : String) : Option (Nat × Nat × Nat) :=
  let cs := s.toList
  if cs.length = 8 ∧ cs.all Char.isDigit = true then
    let y := digitsToNat (cs.take 4)
    let m := digitsToNat ((cs.drop 4).take 2)
    let d := digitsToNat (cs.drop 6)
    if 1 ≤ m ∧ m ≤ 12 ∧ 1 ≤ d ∧ d ≤ daysInMonth y m then some (y, m, d)
    else none
  else none

/-- Modelled from the spec: Go time.ParseDuration restricted to the two
constant layouts the constructor uses; the spec gives the record interval as
1 hour and the file interval as 24 hours. Durations are in seconds. -/
def parseDuration (s : String) : Option Nat :=
  if s = ("1h") then some 3600
  else if s = ("24h") then some 86400
  else none

/-- Model of the WRFCmaq preprocessor configuration produced by NewWRFCmaq
(wrfcmaq.go): the parsed start and end times and the record and file
intervals (the variable-group weight maps and path fields carry no logic
the claims touch and are omitted). -/
structure WRFCmaq where
  start : Nat × Nat × Nat
  «end» : Nat × Nat × Nat
  recordDelta : Nat
  fileDelta : Nat
deriving DecidableEq

/-- Model of NewWRFCmaq (wrfcmaq.go): parses the start date, then the end
date, each failure returning an error and no preprocessor; then parses the
constant duration strings 1h and 24h. -/
def NewWRFCmaq (startDate endDate : String) : Option WRFCmaq := do
  let s ← parse8DigitDate startDate
  let e ← parse8DigitDate endDate
  let rd ← parseDuration ("1h")
  let fd ← parseDuration ("24h")
  pure ⟨s, e, rd, fd⟩

theorem forRangeSet_eq_some {α : Type} (body : Nat → α → Option α)
    (F : Nat → α → α) :
    ∀ (xs : List α) (i : Nat) (dst : List α),
      (∀ j x, xs.get? j = some x → body (i + j) x = some (F (i + j) x)) →
      i + xs.length ≤ dst.length →
      forRangeSet body i xs dst =
        some (dst.take i ++ xs.mapIdx (fun j x => F (i + j) x) ++
          dst.drop (i + xs.length)) := by
  intro xs
  induction xs with
  | nil =>
    intro i dst _ hlen
    simp [forRangeSet, List.take_append_drop]
  | cons x t ih =>
    intro i dst hbody hlen
    have hb0 : body i x = some (F i x) := by
      have := hbody 0 x rfl
      simpa using this
    have hidst : i < dst.length := by
      simp only [List.length_cons] at hlen
      omega
    have hset : setAt dst i (F i x) = some (dst.set i (F i x)) := by
      simp [setAt, hidst]
    have hbody' : ∀ j y, t.get? j = some y →
        body (i + 1 + j) y = some (F (i + 1 + j) y) := by
      intro j y hy
      have heq : i + 1 + j = i + (j + 1) := by omega
      rw [heq]
      exact hbody (j + 1) y hy
    have hlen' : i + 1 + t.length ≤ (dst.set i (F i x)).length := by
      rw [List.length_set]
      simp only [List.length_cons] at hlen
      omega
    rw [forRangeSet, hb0, Option.some_bind, hset, Option.some_bind,
      ih (i + 1) (dst.set i (F i x)) hbody' hlen']
    congr 1
    rw [take_succ_set dst i (F i x) hidst,
      drop_of_set dst i (i + 1 + t.length) (F i x) (by omega),
      List.mapIdx_cons]
    have hfe : (fun j y => F (i + 1 + j) y) =
        fun j y => F (i + (j + 1)) y := by
      funext j y
      rw [show i + 1 + j = i + (j + 1) from by omega]
    have hdrop : i + (x :: t).length = i + 1 + t.length := by
      simp only [List.length_cons]; omega
    rw [hdrop]
    simp only [List.append_assoc, List.singleton_append, Nat.add_zero]
    rw [hfe]

theorem forRangeSet_eq_none {α : Type} (body : Nat → α → Option α) :
    ∀ (xs : List α) (i : Nat) (dst : List α) (j : Nat) (x : α),
      xs.get? j = some x → body (i + j) x = none →
      forRangeSet body i xs dst = none := by
  intro xs
  induction xs with
  | nil => intro i dst j x h; simp at h
  | cons y t ih =>
    intro i dst j x hget hnone
    cases j with
    | zero =>
      simp only [List.get?] at hget
      cases hget
      rw [forRangeSet]
      simp only [Nat.add_zero] at hnone
      rw [hnone, Option.none_bind]
    | succ j =>
      simp only [List.get?] at hget
      rw [forRangeSet]
      cases hb : body i y with
      | none => rw [Option.none_bind]
      | some v =>
        rw [Option.some_bind]
        cases hs : setAt dst i v with
        | none => rw [Option.none_bind]
        | some dst' =>
          rw [Option.some_bind]
          have heq : i + (j + 1) = i + 1 + j := by omega
          rw [heq] at hnone
          exact ih (i + 1) dst' j x hget hnone

theorem f2i_intCast {α : Type} [LinearOrderedField α] [FloorRing α] (c : Int) :
    f2i ((c : α)) = if 0 ≤ c then c else c + 1 := by
  have hhalf : ((c : α) + 1 / 2) = (1 / 2 : α) + (c : α) := by ring
  rcases le_or_lt 0 c with h | h
  · have hc : (0 : α) ≤ (c : α) := by exact_mod_cast h
    rw [f2i, if_pos (by linarith), if_pos h, hhalf, Int.floor_add_int]
    have : ⌊(1 / 2 : α)⌋ = 0 := by
      rw [Int.floor_eq_zero_iff]
      constructor <;> norm_num
    rw [this, Int.zero_add]
  · have hc : (c : α) ≤ -1 := by
      have h1 : c ≤ (-1 : Int) := by omega
      exact_mod_cast h1
    rw [f2i, if_neg (by linarith), if_neg (not_le.mpr h), hhalf,
      Int.ceil_add_int]
    have : ⌈(1 / 2 : α)⌉ = 1 := by
      rw [Int.ceil_eq_iff]
      constructor <;> norm_num
    rw [this, Int.add_comm]

theorem intIndex_isSome {β : Type} (l : List β) (i : Int) :
    (intIndex l i).isSome ↔ 0 ≤ i ∧ i.toNat < l.length := by
  rw [intIndex]
  split
  · rw [Option.isSome_iff_exists]
    constructor
    · rintro ⟨b, hb⟩
      refine ⟨by assumption, ?_⟩
      by_contra hlen
      rw [List.get?_eq_none.mpr (by omega)] at hb
      cases hb
    · rintro ⟨-, hlen⟩
      rcases List.get?_eq_get hlen with h
      exact ⟨_, h⟩
  · simp_all

theorem intIndex_eq_none_of_bad {β : Type} (l : List β) (i : Int)
    (h : i < 0 ∨ (l.length : Int) ≤ i) : intIndex l i = none := by
  rw [intIndex]
  rcases h with h | h
  · rw [if_neg (by omega)]
  · split
    · apply List.get?_eq_none.mpr
      omega
    · rfl

theorem shape_prod_three (s0 s1 s2 : Nat) :
    List.prod [s0, s1, s2] = s0 * (s1 * s2) := by
  simp [List.prod_cons]

theorem flat3_lt {s0 s1 s2 k j i : Nat} (hk : k < s0) (hj : j < s1)
    (hi : i < s2) : k * (s1 * s2) + (j * s2 + i) < s0 * (s1 * s2) := by
  have h1 : j * s2 + i < s1 * s2 := by
    have ha : j * s2 + i < (j + 1) * s2 := by
      rw [Nat.succ_mul]; omega
    have hb : (j + 1) * s2 ≤ s1 * s2 := Nat.mul_le_mul_right _ hj
    omega
  have h2 : k * (s1 * s2) + (j * s2 + i) < (k + 1) * (s1 * s2) := by
    rw [Nat.succ_mul]; omega
  have h3 : (k + 1) * (s1 * s2) ≤ s0 * (s1 * s2) := Nat.mul_le_mul_right _ hk
  omega

theorem get2_eq {α : Type} (a : DenseArray α) (s0 s1 : Nat)
    (hsh : a.shape = [s0, s1]) (j i : Nat) (hj : j < s0) (hi : i < s1) :
    a.get? [j, i] = a.elements.get? (j * s1 + i) := by
  rw [DenseArray.get?, hsh, if_pos]
  · congr 1
    simp [flatIndex]
  · simp [idxInBounds, hj, hi]

theorem get3_eq {α : Type} (a : DenseArray α) (s0 s1 s2 : Nat)
    (hsh : a.shape = [s0, s1, s2]) (k j i : Nat) (hk : k < s0) (hj : j < s1)
    (hi : i < s2) :
    a.get? [k, j, i] = a.elements.get? (k * (s1 * s2) + (j * s2 + i)) := by
  rw [DenseArray.get?, hsh, if_pos]
  · congr 1
    simp [flatIndex, Nat.mul_add, List.prod_cons]
  · simp [idxInBounds, hk, hj, hi]

/-- C7: for every derived producer (temperature, pressure, layer height,
radiation, and the three land-use remaps), a pull whose upstream pull
returns an error returns exactly that error with no grid (the Except.error
value carries no grid), and no elementwise computation runs: the result is
the propagated error for arbitrary other upstream results, including grids
on which the elementwise loop would fail. -/
theorem C7_error_propagation :
    ∀ (e : String) (res : Except String (DenseArray ℝ)) (a : DenseArray ℝ),
      cmaqTemperatureConvert Real.rpow (.error e) res = some (.error e) ∧
      cmaqTemperatureConvert Real.rpow (.ok a) (.error e) = some (.error e) ∧
      cmaqPressureConvert res (.error e) = some (.error e) ∧
      cmaqPressureConvert (.error e) (.ok a) = some (.error e) ∧
      WRFCmaqHeight (.error e) res = some (.error e) ∧
      WRFCmaqHeight (.ok a) (.error e) = some (.error e) ∧
      cmaqRadiationDown (.error e) res = some (.error e) ∧
      cmaqRadiationDown (.ok a) (.error e) = some (.error e) ∧
      cmaqSeinfeldLandUse (.error e : Except String (DenseArray ℝ)) =
        some (.error e) ∧
      cmaqWeselyLandUse (.error e : Except String (DenseArray ℝ)) =
        some (.error e) ∧
      cmaqZ0 (.error e : Except String (DenseArray ℝ)) = some (.error e) := by
  intro e res a
  exact ⟨rfl, rfl, rfl, rfl, rfl, rfl, rfl, rfl, rfl, rfl, rfl⟩

/-- C9: for equal-shaped grids the elementwise-add combinators are
commutative in their inputs: pressure applied to (a, b) equals pressure
applied to (b, a), and likewise for radiation, the common shape being the
output shape. -/
theorem C9_add_commutative (a b : DenseArray ℝ) (h : a.shape = b.shape) :
    cmaqPressureConvert (.ok a) (.ok b) = cmaqPressureConvert (.ok b) (.ok a) ∧
    cmaqRadiationDown (.ok a) (.ok b) = cmaqRadiationDown (.ok b) (.ok a) := by
  have hmk : (⟨b.shape, b.elements.zipWith (· + ·) a.elements⟩ : DenseArray ℝ) =
      ⟨a.shape, a.elements.zipWith (· + ·) b.elements⟩ := by
    rw [DenseArray.mk.injEq]
    exact ⟨h.symm, List.zipWith_comm_of_comm _ (fun x y => add_comm x y) _ _⟩
  constructor
  · show (AddDense b a).map Except.ok = (AddDense a b).map Except.ok
    rw [AddDense, AddDense, if_pos h.symm, if_pos h, Option.map_some',
      Option.map_some', hmk]
  · show (AddDense a b).map Except.ok = (AddDense b a).map Except.ok
    rw [AddDense, AddDense, if_pos h.symm, if_pos h, Option.map_some',
      Option.map_some', hmk]

/-- C9 witness: the commutativity theorem applied at two concrete
equal-shaped grids. -/
theorem C9_witness :
    cmaqPressureConvert (.ok (⟨[2], [(1:ℝ), 2]⟩ : DenseArray ℝ))
        (.ok (⟨[2], [(10:ℝ), 20]⟩ : DenseArray ℝ)) =
      cmaqPressureConvert (.ok (⟨[2], [(10:ℝ), 20]⟩ : DenseArray ℝ))
        (.ok (⟨[2], [(1:ℝ), 2]⟩ : DenseArray ℝ)) ∧
    cmaqRadiationDown (.ok (⟨[2], [(1:ℝ), 2]⟩ : DenseArray ℝ))
        (.ok (⟨[2], [(10:ℝ), 20]⟩ : DenseArray ℝ)) =
      cmaqRadiationDown (.ok (⟨[2], [(10:ℝ), 20]⟩ : DenseArray ℝ))
        (.ok (⟨[2], [(1:ℝ), 2]⟩ : DenseArray ℝ)) :=
  C9_add_commutative ⟨[2], [1, 2]⟩ ⟨[2], [10, 20]⟩ rfl

/-- C10: the three static lookup tables all have length 40, so a land-use
code is an in-range index for one of the three remap tables exactly when it
is for every other. -/
theorem C10_table_lengths :
    NLCDseinfeld.length = 40 ∧ NLCDwesely.length = 40 ∧ NLCDz0.length = 40 ∧
    ∀ c : Int,
      ((intIndex NLCDseinfeld (c - 1)).isSome ↔
        (intIndex NLCDwesely (c - 1)).isSome) ∧
      ((intIndex NLCDseinfeld (c - 1)).isSome ↔
        (intIndex NLCDz0 (c - 1)).isSome) := by
  refine ⟨rfl, rfl, rfl, fun c => ?_⟩
  rw [intIndex_isSome, intIndex_isSome, intIndex_isSome,
    show NLCDseinfeld.length = 40 from rfl,
    show NLCDwesely.length = 40 from rfl,
    show NLCDz0.length = 40 from rfl]
  exact ⟨Iff.rfl, Iff.rfl⟩

/-- C5: on equal-shaped inputs the pressure combinator returns the
elementwise sum baseline + perturbation and the radiation combinator the
elementwise sum shortwave + longwave, each output having the common input
shape. -/
theorem C5_elementwise_add (p pb swDown glw : DenseArray ℝ)
    (h1 : p.shape = pb.shape) (h2 : swDown.shape = glw.shape) :
    (∃ P : DenseArray ℝ,
      cmaqPressureConvert (.ok p) (.ok pb) = some (.ok P) ∧
      P.shape = pb.shape ∧ P.shape = p.shape ∧
      ∀ k a b, pb.elements.get? k = some a → p.elements.get? k = some b →
        P.elements.get? k = some (a + b)) ∧
    (∃ rad : DenseArray ℝ,
      cmaqRadiationDown (.ok swDown) (.ok glw) = some (.ok rad) ∧
      rad.shape = swDown.shape ∧ rad.shape = glw.shape ∧
      ∀ k a b, swDown.elements.get? k = some a → glw.elements.get? k = some b →
        rad.elements.get? k = some (a + b)) := by
  constructor
  · refine ⟨⟨pb.shape, pb.elements.zipWith (· + ·) p.elements⟩, ?_, rfl,
      h1.symm ▸ rfl, ?_⟩
    · show (AddDense pb p).map Except.ok = _
      rw [AddDense, if_pos h1.symm, Option.map_some']
    · intro k a b ha hb
      exact get?_zipWith_some _ _ _ _ _ _ ha hb
  · refine ⟨⟨swDown.shape, swDown.elements.zipWith (· + ·) glw.elements⟩, ?_,
      rfl, h2 ▸ rfl, ?_⟩
    · show (AddDense swDown glw).map Except.ok = _
      rw [AddDense, if_pos h2, Option.map_some']
    · intro k a b ha hb
      exact get?_zipWith_some _ _ _ _ _ _ ha hb

/-- C5 witness: the elementwise-sum theorem applied at concrete grids. -/
theorem C5_witness :
    (∃ P : DenseArray ℝ,
      cmaqPressureConvert (.ok (⟨[1], [(7:ℝ)]⟩ : DenseArray ℝ))
          (.ok (⟨[1], [(100:ℝ)]⟩ : DenseArray ℝ)) = some (.ok P) ∧
      P.shape = (⟨[1], [(100:ℝ)]⟩ : DenseArray ℝ).shape ∧
      P.shape = (⟨[1], [(7:ℝ)]⟩ : DenseArray ℝ).shape ∧
      ∀ k a b,
        (⟨[1], [(100:ℝ)]⟩ : DenseArray ℝ).elements.get? k = some a →
        (⟨[1], [(7:ℝ)]⟩ : DenseArray ℝ).elements.get? k = some b →
        P.elements.get? k = some (a + b)) ∧
    (∃ rad : DenseArray ℝ,
      cmaqRadiationDown (.ok (⟨[1], [(3:ℝ)]⟩ : DenseArray ℝ))
          (.ok (⟨[1], [(4:ℝ)]⟩ : DenseArray ℝ)) = some (.ok rad) ∧
      rad.shape = (⟨[1], [(3:ℝ)]⟩ : DenseArray ℝ).shape ∧
      rad.shape = (⟨[1], [(4:ℝ)]⟩ : DenseArray ℝ).shape ∧
      ∀ k a b,
        (⟨[1], [(3:ℝ)]⟩ : DenseArray ℝ).elements.get? k = some a →
        (⟨[1], [(4:ℝ)]⟩ : DenseArray ℝ).elements.get? k = some b →
        rad.elements.get? k = some (a + b)) :=
  C5_elementwise_add ⟨[1], [7]⟩ ⟨[1], [100]⟩ ⟨[1], [3]⟩ ⟨[1], [4]⟩ rfl rfl

/-- C8: NewWRFCmaq fails (returning no preprocessor) exactly when the start
date or the end date fails to parse in the 8-digit date format; on success
the result holds the parsed start and end times, a record interval of
exactly 1 hour (3600 s) and a file interval of exactly 24 hours (86400 s). -/
theorem C8_construction (startDate endDate : String) :
    (NewWRFCmaq startDate endDate = none ↔
      (parse8DigitDate startDate = none ∨ parse8DigitDate endDate = none)) ∧
    ∀ w : WRFCmaq, NewWRFCmaq startDate endDate = some w →
      parse8DigitDate startDate = some w.start ∧
      parse8DigitDate endDate = some w.«end» ∧
      w.recordDelta = 3600 ∧ w.fileDelta = 86400 := by
  have hd1 : parseDuration ("1h") = some 3600 := rfl
  have hd24 : parseDuration ("24h") = some 86400 := rfl
  cases hs : parse8DigitDate startDate with
  | none =>
    constructor
    · rw [NewWRFCmaq, hs]
      simp
    · intro w hw
      rw [NewWRFCmaq, hs] at hw
      simp at hw
  | some s =>
    cases he : parse8DigitDate endDate with
    | none =>
      constructor
      · rw [NewWRFCmaq, hs, he]
        simp
      · intro w hw
        rw [NewWRFCmaq, hs, he] at hw
        simp at hw
    | some t =>
      constructor
      · rw [NewWRFCmaq, hs, he]
        simp [hd1, hd24]
      · intro w hw
        rw [NewWRFCmaq, hs, he] at hw
        simp only [hd1, hd24, Option.some_bind] at hw
        have hw' : w = ⟨s, t, 3600, 86400⟩ := by
          cases hw
          rfl
        subst hw'
        exact ⟨rfl, rfl, rfl, rfl⟩

/-- C8 witness: the construction theorem applied at two concrete valid
dates. -/
theorem C8_witness :
    parse8DigitDate ("20130101") =
      some (⟨(2013, 1, 1), (2013, 1, 2), 3600, 86400⟩ : WRFCmaq).start ∧
    parse8DigitDate ("20130102") =
      some (⟨(2013, 1, 1), (2013, 1, 2), 3600, 86400⟩ : WRFCmaq).«end» ∧
    (⟨(2013, 1, 1), (2013, 1, 2), 3600, 86400⟩ : WRFCmaq).recordDelta = 3600 ∧
    (⟨(2013, 1, 1), (2013, 1, 2), 3600, 86400⟩ : WRFCmaq).fileDelta = 86400 :=
  (C8_construction ("20130101") ("20130102")).2
    ⟨(2013, 1, 1), (2013, 1, 2), 3600, 86400⟩ (by decide)

theorem thetaPerturbToTemperature_rpow (tp pe : ℝ) :
    thetaPerturbToTemperature Real.rpow tp pe =
      (tp + 300) * (pe / 101300) ^ (0.2854 : ℝ) := by
  show (tp + 300) * Real.rpow (pe / 101300) (2854 / 10000) = _
  have h1 : Real.rpow (pe / 101300) (2854 / 10000) =
      (pe / 101300) ^ ((2854 : ℝ) / 10000) := rfl
  rw [h1]
  norm_num

theorem thetaPerturbToTemperature_ref :
    thetaPerturbToTemperature Real.rpow (0 : ℝ) 101300 = 300 := by
  rw [thetaPerturbToTemperature_rpow]
  have h1 : ((101300 : ℝ) / 101300) = 1 := by norm_num
  rw [h1, Real.one_rpow]
  norm_num

/-- C1: for every perturbation potential temperature grid and every pressure
grid of the same shape, the temperature combinator produces a grid of that
shape whose every cell is (tp + 300) * (pe / 101300) ^ 0.2854; in
particular at tp = 0 and pe = 101300 the cell is exactly 300 K. -/
theorem C1_temperature_formula (thetaPerturb p : DenseArray ℝ)
    (hshape : thetaPerturb.shape = p.shape)
    (hwft : thetaPerturb.WellFormed) (hwfp : p.WellFormed) :
    (∃ T : DenseArray ℝ,
      cmaqTemperatureConvert Real.rpow (.ok thetaPerturb) (.ok p) =
        some (.ok T) ∧
      T.shape = thetaPerturb.shape ∧
      T.elements.length = thetaPerturb.elements.length ∧
      ∀ i tp pe, thetaPerturb.elements.get? i = some tp →
        p.elements.get? i = some pe →
        T.elements.get? i =
          some ((tp + 300) * (pe / 101300) ^ (0.2854 : ℝ))) ∧
    cmaqTemperatureConvert Real.rpow (.ok (⟨[1], [(0:ℝ)]⟩ : DenseArray ℝ))
        (.ok (⟨[1], [(101300:ℝ)]⟩ : DenseArray ℝ)) =
      some (.ok (⟨[1], [(300:ℝ)]⟩ : DenseArray ℝ)) := by
  have hwft' : thetaPerturb.elements.length = thetaPerturb.shape.prod := hwft
  have hwfp' : p.elements.length = p.shape.prod := hwfp
  have hplen : thetaPerturb.elements.length = p.elements.length := by
    rw [hwft', hwfp', hshape]
  constructor
  · set F : Nat → ℝ → ℝ := fun i tp =>
      thetaPerturbToTemperature Real.rpow tp ((p.elements.get? i).getD 0)
      with hF
    have hbody : ∀ j x, thetaPerturb.elements.get? j = some x →
        (p.elements.get? (0 + j)).map (fun pe =>
          thetaPerturbToTemperature Real.rpow x pe) =
          some (F (0 + j) x) := by
      intro j x hx
      have hj : j < thetaPerturb.elements.length := by
        by_contra hcon
        rw [List.get?_eq_none.mpr (by omega)] at hx
        cases hx
      have hjp : j < p.elements.length := by omega
      obtain ⟨pe, hpe⟩ : ∃ pe, p.elements.get? j = some pe :=
        ⟨_, List.get?_eq_get hjp⟩
      simp only [Nat.zero_add, hF, hpe, Option.map_some', Option.getD_some]
    have hlen0 : 0 + thetaPerturb.elements.length ≤
        (List.replicate thetaPerturb.shape.prod (0:ℝ)).length := by
      rw [List.length_replicate]
      omega
    have hrun := forRangeSet_eq_some
      (fun i tp => (p.elements.get? i).map fun pe =>
        thetaPerturbToTemperature Real.rpow tp pe)
      F thetaPerturb.elements 0
      (List.replicate thetaPerturb.shape.prod (0:ℝ)) hbody hlen0
    have hdrop : (List.replicate thetaPerturb.shape.prod (0:ℝ)).drop
        (0 + thetaPerturb.elements.length) = [] := by
      apply List.drop_eq_nil_of_le
      rw [List.length_replicate]
      omega
    rw [List.take_zero, hdrop, List.append_nil, List.nil_append] at hrun
    refine ⟨⟨thetaPerturb.shape,
      thetaPerturb.elements.mapIdx fun j x => F (0 + j) x⟩, ?_, rfl, ?_, ?_⟩
    · show (cmaqTemperatureGrid Real.rpow thetaPerturb p).map Except.ok = _
      rw [cmaqTemperatureGrid]
      simp only [ZerosDense]
      rw [hrun]
      simp only [Option.map_some']
    · simp
    · intro i tp pe htp hpe
      rw [get?_mapIdx, htp, Option.map_some']
      simp only [Nat.zero_add, hF, hpe, Option.getD_some]
      rw [thetaPerturbToTemperature_rpow]
  · have hconc : cmaqTemperatureConvert Real.rpow
        (.ok (⟨[1], [(0:ℝ)]⟩ : DenseArray ℝ))
        (.ok (⟨[1], [(101300:ℝ)]⟩ : DenseArray ℝ)) =
        some (.ok ⟨[1], [thetaPerturbToTemperature Real.rpow 0 101300]⟩) := rfl
    rw [hconc, thetaPerturbToTemperature_ref]

/-- C1 witness: the temperature theorem applied at the concrete reference
grids. -/
theorem C1_witness :
    (∃ T : DenseArray ℝ,
      cmaqTemperatureConvert Real.rpow (.ok (⟨[1], [(0:ℝ)]⟩ : DenseArray ℝ))
          (.ok (⟨[1], [(101300:ℝ)]⟩ : DenseArray ℝ)) = some (.ok T) ∧
      T.shape = (⟨[1], [(0:ℝ)]⟩ : DenseArray ℝ).shape ∧
      T.elements.length =
        (⟨[1], [(0:ℝ)]⟩ : DenseArray ℝ).elements.length ∧
      ∀ i tp pe,
        (⟨[1], [(0:ℝ)]⟩ : DenseArray ℝ).elements.get? i = some tp →
        (⟨[1], [(101300:ℝ)]⟩ : DenseArray ℝ).elements.get? i = some pe →
        T.elements.get? i =
          some ((tp + 300) * (pe / 101300) ^ (0.2854 : ℝ))) ∧
    cmaqTemperatureConvert Real.rpow (.ok (⟨[1], [(0:ℝ)]⟩ : DenseArray ℝ))
        (.ok (⟨[1], [(101300:ℝ)]⟩ : DenseArray ℝ)) =
      some (.ok (⟨[1], [(300:ℝ)]⟩ : DenseArray ℝ)) :=
  C1_temperature_formula ⟨[1], [0]⟩ ⟨[1], [101300]⟩ rfl rfl rfl

/-- C4 counterexample: two upstream grids of different shapes on which the
temperature combinator does not fail at all: the θ grid has one element and
the pressure grid two, the loop runs over the θ elements only, and a result
grid is produced. -/
theorem C4_counterexample :
    (⟨[1], [(0:ℝ)]⟩ : DenseArray ℝ).shape ≠
      (⟨[2], [(101300:ℝ), 0]⟩ : DenseArray ℝ).shape ∧
    cmaqTemperatureConvert Real.rpow
      (.ok (⟨[1], [(0:ℝ)]⟩ : DenseArray ℝ))
      (.ok (⟨[2], [(101300:ℝ), 0]⟩ : DenseArray ℝ)) ≠ none := by
  constructor
  · intro h
    simp at h
  · have hres : cmaqTemperatureConvert Real.rpow
        (.ok (⟨[1], [(0:ℝ)]⟩ : DenseArray ℝ))
        (.ok (⟨[2], [(101300:ℝ), 0]⟩ : DenseArray ℝ)) =
        some (.ok ⟨[1], [thetaPerturbToTemperature Real.rpow 0 101300]⟩) := rfl
    rw [hres]
    simp

/-- C4 amended: the pressure and radiation combinators do fail on
differently-shaped inputs before any cell is added (through the shape check
of the underlying array addition), but the temperature and layer-height
combinators perform no shape check: temperature succeeds whenever the
pressure grid has at least as many elements as the well-formed θ grid, and
fails by a panic inside the loop (the read of p.Elements at the pressure
grid's length) when the pressure grid has fewer elements; the layer-height
computation can likewise succeed on differently-shaped geopotential
grids. -/
theorem C4_amended :
    (∀ a b : DenseArray ℝ, a.shape ≠ b.shape →
      cmaqPressureConvert (.ok a) (.ok b) = none ∧
      cmaqRadiationDown (.ok a) (.ok b) = none) ∧
    (∀ thetaPerturb p : DenseArray ℝ, thetaPerturb.WellFormed →
      thetaPerturb.elements.length ≤ p.elements.length →
      cmaqTemperatureConvert Real.rpow (.ok thetaPerturb) (.ok p) ≠ none) ∧
    (∀ thetaPerturb p : DenseArray ℝ,
      p.elements.length < thetaPerturb.elements.length →
      cmaqTemperatureConvert Real.rpow (.ok thetaPerturb) (.ok p) = none) ∧
    geopotentialToHeight (⟨[1, 1, 1], [(5:ℝ)]⟩ : DenseArray ℝ)
      (⟨[1, 1, 2], [(3:ℝ), 4]⟩ : DenseArray ℝ) ≠ none := by
  refine ⟨?_, ?_, ?_, ?_⟩
  · intro a b h
    constructor
    · show (AddDense b a).map Except.ok = none
      rw [AddDense, if_neg (fun hh => h hh.symm)]
      rfl
    · show (AddDense a b).map Except.ok = none
      rw [AddDense, if_neg h]
      rfl
  · intro thetaPerturb p hwf hle
    have hwf' : thetaPerturb.elements.length = thetaPerturb.shape.prod := hwf
    set F : Nat → ℝ → ℝ := fun i tp =>
      thetaPerturbToTemperature Real.rpow tp ((p.elements.get? i).getD 0)
      with hF
    have hbody : ∀ j x, thetaPerturb.elements.get? j = some x →
        (p.elements.get? (0 + j)).map (fun pe =>
          thetaPerturbToTemperature Real.rpow x pe) =
          some (F (0 + j) x) := by
      intro j x hx
      have hj : j < thetaPerturb.elements.length := by
        by_contra hcon
        rw [List.get?_eq_none.mpr (by omega)] at hx
        cases hx
      have hjp : j < p.elements.length := by omega
      obtain ⟨pe, hpe⟩ : ∃ pe, p.elements.get? j = some pe :=
        ⟨_, List.get?_eq_get hjp⟩
      simp only [Nat.zero_add, hF, hpe, Option.map_some', Option.getD_some]
    have hlen0 : 0 + thetaPerturb.elements.length ≤
        (List.replicate thetaPerturb.shape.prod (0:ℝ)).length := by
      rw [List.length_replicate]
      omega
    have hrun := forRangeSet_eq_some
      (fun i tp => (p.elements.get? i).map fun pe =>
        thetaPerturbToTemperature Real.rpow tp pe)
      F thetaPerturb.elements 0
      (List.replicate thetaPerturb.shape.prod (0:ℝ)) hbody hlen0
    intro hnone
    have hres : cmaqTemperatureConvert Real.rpow (.ok thetaPerturb) (.ok p) =
        (cmaqTemperatureGrid Real.rpow thetaPerturb p).map Except.ok := rfl
    rw [hres, cmaqTemperatureGrid] at hnone
    simp only [ZerosDense] at hnone
    rw [hrun] at hnone
    simp at hnone
  · intro thetaPerturb p hlt
    obtain ⟨x, hx⟩ : ∃ x,
        thetaPerturb.elements.get? p.elements.length = some x :=
      ⟨_, List.get?_eq_get hlt⟩
    have hbody : (p.elements.get? (0 + p.elements.length)).map
        (fun pe => thetaPerturbToTemperature Real.rpow x pe) = none := by
      rw [Nat.zero_add, List.get?_eq_none.mpr (le_refl _)]
      rfl
    have hloop := forRangeSet_eq_none
      (fun i tp => (p.elements.get? i).map fun pe =>
        thetaPerturbToTemperature Real.rpow tp pe)
      thetaPerturb.elements 0
      (List.replicate thetaPerturb.shape.prod (0:ℝ))
      p.elements.length x hx hbody
    show (cmaqTemperatureGrid Real.rpow thetaPerturb p).map Except.ok = none
    rw [cmaqTemperatureGrid]
    simp only [ZerosDense]
    rw [hloop]
    rfl
  · have hres : geopotentialToHeight (⟨[1, 1, 1], [(5:ℝ)]⟩ : DenseArray ℝ)
        (⟨[1, 1, 2], [(3:ℝ), 4]⟩ : DenseArray ℝ) =
        some ⟨[1, 1, 1], [((5:ℝ) + 3 - 5 - 3) / g]⟩ := rfl
    rw [hres]
    simp

/-- C4 witness: the amended theorem applied at concrete inputs, exercising
the mismatch failure of pressure and radiation, the unchecked temperature
success with a longer pressure grid, and the mid-loop temperature failure
with a shorter pressure grid. -/
theorem C4_amended_witness :
    cmaqPressureConvert (.ok (⟨[1], [(1:ℝ)]⟩ : DenseArray ℝ))
        (.ok (⟨[2], [(1:ℝ), 2]⟩ : DenseArray ℝ)) = none ∧
    cmaqRadiationDown (.ok (⟨[1], [(1:ℝ)]⟩ : DenseArray ℝ))
        (.ok (⟨[2], [(1:ℝ), 2]⟩ : DenseArray ℝ)) = none ∧
    cmaqTemperatureConvert Real.rpow (.ok (⟨[1], [(7:ℝ)]⟩ : DenseArray ℝ))
        (.ok (⟨[2], [(50000:ℝ), 0]⟩ : DenseArray ℝ)) ≠ none ∧
    cmaqTemperatureConvert Real.rpow
        (.ok (⟨[2], [(7:ℝ), 8]⟩ : DenseArray ℝ))
        (.ok (⟨[1], [(50000:ℝ)]⟩ : DenseArray ℝ)) = none :=
  ⟨(C4_amended.1 ⟨[1], [1]⟩ ⟨[2], [1, 2]⟩ (by simp)).1,
   (C4_amended.1 ⟨[1], [1]⟩ ⟨[2], [1, 2]⟩ (by simp)).2,
   C4_amended.2.1 ⟨[1], [7]⟩ ⟨[2], [50000, 0]⟩ rfl (by simp),
   C4_amended.2.2.1 ⟨[2], [7, 8]⟩ ⟨[1], [50000]⟩ (by simp)⟩

theorem flat2_lt {s1 s2 j i : Nat} (hj : j < s1) (hi : i < s2) :
    j * s2 + i < s1 * s2 := by
  have ha : j * s2 + i < (j + 1) * s2 := by
    rw [Nat.succ_mul]; omega
  have hb : (j + 1) * s2 ≤ s1 * s2 := Nat.mul_le_mul_right _ hj
  omega

/-- C2: on identically shaped 3-dimensional geopotential grids the
layer-height combinator produces a grid of the same shape whose value at
layer k, row j, column i is ((PH+PHB)(k,j,i) - (PH+PHB)(0,j,i)) / g, the
reference value depending only on the column; consequently the value at
layer 0 of every column is exactly 0. -/
theorem C2_layer_height (ph phb : DenseArray ℝ) (s0 s1 s2 : Nat)
    (hsh : ph.shape = [s0, s1, s2]) (hshb : phb.shape = ph.shape)
    (hwf1 : ph.WellFormed) (hwf2 : phb.WellFormed) :
    ∃ out : DenseArray ℝ,
      WRFCmaqHeight (.ok ph) (.ok phb) = some (.ok out) ∧
      out.shape = ph.shape ∧
      (∀ k j i a b c d, k < s0 → j < s1 → i < s2 →
        ph.get? [k, j, i] = some a → phb.get? [k, j, i] = some b →
        ph.get? [0, j, i] = some c → phb.get? [0, j, i] = some d →
        out.get? [k, j, i] = some ((a + b - (c + d)) / g)) ∧
      (∀ j i, 0 < s0 → j < s1 → i < s2 →
        out.get? [0, j, i] = some 0) := by
  have hshb' : phb.shape = [s0, s1, s2] := by rw [hshb, hsh]
  have hlen1 : ph.elements.length = s0 * (s1 * s2) := by
    have h : ph.elements.length = ph.shape.prod := hwf1
    rw [hsh, shape_prod_three] at h
    exact h
  have hlen2 : phb.elements.length = s0 * (s1 * s2) := by
    have h : phb.elements.length = phb.shape.prod := hwf2
    rw [hshb', shape_prod_three] at h
    exact h
  have hget1 : ∀ k j i, k < s0 → j < s1 → i < s2 →
      ∃ v, ph.elements.get? (k * (s1 * s2) + (j * s2 + i)) = some v := by
    intro k j i hk hj hi
    exact ⟨_, List.get?_eq_get (by rw [hlen1]; exact flat3_lt hk hj hi)⟩
  have hget2 : ∀ k j i, k < s0 → j < s1 → i < s2 →
      ∃ v, phb.elements.get? (k * (s1 * s2) + (j * s2 + i)) = some v := by
    intro k j i hk hj hi
    exact ⟨_, List.get?_eq_get (by rw [hlen2]; exact flat3_lt hk hj hi)⟩
  set V : Nat → Nat → Nat → ℝ := fun k j i =>
    ((ph.elements.get? (k * (s1 * s2) + (j * s2 + i))).getD 0 +
      (phb.elements.get? (k * (s1 * s2) + (j * s2 + i))).getD 0 -
      (ph.elements.get? (0 * (s1 * s2) + (j * s2 + i))).getD 0 -
      (phb.elements.get? (0 * (s1 * s2) + (j * s2 + i))).getD 0) / g
    with hV
  have hinner : ∀ k j, k < s0 → j < s1 →
      List.mapM (fun i =>
        (ph.get? [k, j, i]).bind fun a =>
        (phb.get? [k, j, i]).bind fun b =>
        (ph.get? [0, j, i]).bind fun c =>
        (phb.get? [0, j, i]).bind fun d =>
        some ((a + b - c - d) / g)) (List.range s2) =
      some ((List.range s2).map fun i => V k j i) := by
    intro k j hk hj
    apply mapM_eq_some_map
    intro i hi
    have hi' : i < s2 := List.mem_range.mp hi
    have h0s : 0 < s0 := by omega
    obtain ⟨a, ha⟩ := hget1 k j i hk hj hi'
    obtain ⟨b, hb⟩ := hget2 k j i hk hj hi'
    obtain ⟨c, hc⟩ := hget1 0 j i h0s hj hi'
    obtain ⟨d, hd⟩ := hget2 0 j i h0s hj hi'
    rw [get3_eq ph s0 s1 s2 hsh k j i hk hj hi',
      get3_eq phb s0 s1 s2 hshb' k j i hk hj hi',
      get3_eq ph s0 s1 s2 hsh 0 j i h0s hj hi',
      get3_eq phb s0 s1 s2 hshb' 0 j i h0s hj hi',
      ha, hb, hc, hd]
    simp only [Option.some_bind, hV, ha, hb, hc, hd, Option.getD_some]
  have hmid : ∀ k, k < s0 →
      List.mapM (fun j =>
        List.mapM (fun i =>
          (ph.get? [k, j, i]).bind fun a =>
          (phb.get? [k, j, i]).bind fun b =>
          (ph.get? [0, j, i]).bind fun c =>
          (phb.get? [0, j, i]).bind fun d =>
          some ((a + b - c - d) / g)) (List.range s2)) (List.range s1) =
      some ((List.range s1).map fun j => (List.range s2).map fun i => V k j i) := by
    intro k hk
    apply mapM_eq_some_map
    intro j hj
    exact hinner k j hk (List.mem_range.mp hj)
  have houter :
      List.mapM (fun k =>
        List.mapM (fun j =>
          List.mapM (fun i =>
            (ph.get? [k, j, i]).bind fun a =>
            (phb.get? [k, j, i]).bind fun b =>
            (ph.get? [0, j, i]).bind fun c =>
            (phb.get? [0, j, i]).bind fun d =>
            some ((a + b - c - d) / g)) (List.range s2)) (List.range s1))
        (List.range s0) =
      some ((List.range s0).map fun k =>
        (List.range s1).map fun j => (List.range s2).map fun i => V k j i) := by
    apply mapM_eq_some_map
    intro k hk
    exact hmid k (List.mem_range.mp hk)
  have h0 : ph.shape.get? 0 = some s0 := by rw [hsh]; rfl
  have h1 : ph.shape.get? 1 = some s1 := by rw [hsh]; rfl
  have h2 : ph.shape.get? 2 = some s2 := by rw [hsh]; rfl
  set rows : List (List (List ℝ)) := (List.range s0).map fun k =>
    (List.range s1).map fun j => (List.range s2).map fun i => V k j i
    with hrows
  have hgeo : geopotentialToHeight ph phb =
      some ⟨ph.shape, (rows.map List.join).join⟩ := by
    rw [geopotentialToHeight, h0, Option.some_bind, h1, Option.some_bind, h2,
      Option.some_bind, houter, Option.some_bind]
  have huniform : ∀ r ∈ rows.map List.join, r.length = s1 * s2 := by
    intro r hr
    obtain ⟨rowK, hmem, hrfl⟩ := List.mem_map.mp hr
    obtain ⟨k, _, hfk⟩ := List.mem_map.mp hmem
    subst hrfl
    subst hfk
    rw [join_length_of_uniform s2]
    · rw [List.length_map, List.length_range]
    · intro r2 hr2
      obtain ⟨j, _, hfj⟩ := List.mem_map.mp hr2
      subst hfj
      rw [List.length_map, List.length_range]
  have hflatget : ∀ k j i, k < s0 → j < s1 → i < s2 →
      (rows.map List.join).join.get? (k * (s1 * s2) + (j * s2 + i)) =
        some (V k j i) := by
    intro k j i hk hj hi
    rw [join_get?_of_uniform (s1 * s2) (rows.map List.join) huniform k
      (j * s2 + i) (flat2_lt hj hi)]
    rw [List.get?_map, hrows, List.get?_map, List.get?_range hk]
    simp only [Option.map_some', Option.some_bind]
    rw [join_get?_of_uniform s2 _ ?hu j i hi]
    case hu =>
      intro r2 hr2
      obtain ⟨j2, _, hfj⟩ := List.mem_map.mp hr2
      subst hfj
      rw [List.length_map, List.length_range]
    rw [List.get?_map, List.get?_range hj]
    simp only [Option.map_some', Option.some_bind]
    rw [List.get?_map, List.get?_range hi]
    rfl
  refine ⟨⟨ph.shape, (rows.map List.join).join⟩, ?_, rfl, ?_, ?_⟩
  · show (geopotentialToHeight ph phb).map Except.ok = _
    rw [hgeo, Option.map_some']
  · intro k j i a b c d hk hj hi ha hb hc hd
    rw [get3_eq ph s0 s1 s2 hsh k j i hk hj hi] at ha
    rw [get3_eq phb s0 s1 s2 hshb' k j i hk hj hi] at hb
    rw [get3_eq ph s0 s1 s2 hsh 0 j i (by omega) hj hi] at hc
    rw [get3_eq phb s0 s1 s2 hshb' 0 j i (by omega) hj hi] at hd
    rw [get3_eq ⟨ph.shape, (rows.map List.join).join⟩ s0 s1 s2 hsh k j i
      hk hj hi]
    show (rows.map List.join).join.get? _ = _
    rw [hflatget k j i hk hj hi]
    simp only [hV, ha, hb, hc, hd, Option.getD_some]
    congr 1
    ring
  · intro j i h0s hj hi
    obtain ⟨c, hc⟩ := hget1 0 j i h0s hj hi
    obtain ⟨d, hd⟩ := hget2 0 j i h0s hj hi
    rw [get3_eq ⟨ph.shape, (rows.map List.join).join⟩ s0 s1 s2 hsh 0 j i
      h0s hj hi]
    show (rows.map List.join).join.get? _ = _
    rw [hflatget 0 j i h0s hj hi]
    simp only [hV, hc, hd, Option.getD_some]
    congr 1
    ring

/-- C2 witness: the layer-height theorem applied at concrete two-layer
single-column grids. -/
theorem C2_witness :
    ∃ out : DenseArray ℝ,
      WRFCmaqHeight (.ok (⟨[2, 1, 1], [(1:ℝ), 3]⟩ : DenseArray ℝ))
          (.ok (⟨[2, 1, 1], [(2:ℝ), 5]⟩ : DenseArray ℝ)) = some (.ok out) ∧
      out.shape = (⟨[2, 1, 1], [(1:ℝ), 3]⟩ : DenseArray ℝ).shape ∧
      (∀ k j i a b c d, k < 2 → j < 1 → i < 1 →
        (⟨[2, 1, 1], [(1:ℝ), 3]⟩ : DenseArray ℝ).get? [k, j, i] = some a →
        (⟨[2, 1, 1], [(2:ℝ), 5]⟩ : DenseArray ℝ).get? [k, j, i] = some b →
        (⟨[2, 1, 1], [(1:ℝ), 3]⟩ : DenseArray ℝ).get? [0, j, i] = some c →
        (⟨[2, 1, 1], [(2:ℝ), 5]⟩ : DenseArray ℝ).get? [0, j, i] = some d →
        out.get? [k, j, i] = some ((a + b - (c + d)) / g)) ∧
      (∀ j i, 0 < 2 → j < 1 → i < 1 → out.get? [0, j, i] = some 0) :=
  C2_layer_height ⟨[2, 1, 1], [1, 3]⟩ ⟨[2, 1, 1], [2, 5]⟩ 2 1 1 rfl rfl rfl rfl

theorem shape_prod_two (s0 s1 : Nat) : List.prod [s0, s1] = s0 * s1 := by
  simp [List.prod_cons]

theorem remap_loop_spec {β : Type} (table : List β) (toVal : β → ℝ)
    (lu : DenseArray ℝ) (s0 s1 : Nat)
    (hsh : lu.shape = [s0, s1]) (hwf : lu.WellFormed)
    (hcodes : ∀ x ∈ lu.elements, ∃ c : Int, x = (c : ℝ) ∧ 1 ≤ c ∧
      c ≤ (table.length : Int)) :
    ∃ rows2 : List (List ℝ),
      ((List.range s0).mapM fun j => (List.range s1).mapM fun i =>
        (lu.get? [j, i]).bind fun code =>
        (intIndex table (f2i code - 1)).bind fun cat =>
        some (toVal cat)) = some rows2 ∧
      rows2.join.length = s0 * s1 ∧
      ∀ k c, lu.elements.get? k = some ((c : Int) : ℝ) → 1 ≤ c →
        c ≤ (table.length : Int) →
        rows2.join.get? k = (intIndex table (c - 1)).map toVal := by
  have hlen : lu.elements.length = s0 * s1 := by
    have h : lu.elements.length = lu.shape.prod := hwf
    rw [hsh, shape_prod_two] at h
    exact h
  set Vs : Nat → Nat → ℝ := fun j i =>
    ((intIndex table (f2i ((lu.elements.get? (j * s1 + i)).getD 0) - 1)).map
      toVal).getD 0 with hVs
  have hbody : ∀ j i, j < s0 → i < s1 →
      ((lu.get? [j, i]).bind fun code =>
        (intIndex table (f2i code - 1)).bind fun cat =>
        some (toVal cat)) = some (Vs j i) := by
    intro j i hj hi
    have hflat : j * s1 + i < lu.elements.length := by
      rw [hlen]
      exact flat2_lt hj hi
    obtain ⟨x, hx⟩ : ∃ x, lu.elements.get? (j * s1 + i) = some x :=
      ⟨_, List.get?_eq_get hflat⟩
    obtain ⟨c, hxc, hc1, hcN⟩ := hcodes x (List.get?_mem hx)
    subst hxc
    have hf : f2i ((c : ℝ)) = c := by
      rw [f2i_intCast, if_pos (by omega)]
    have hidx : (c - 1).toNat < table.length := by omega
    obtain ⟨e, he⟩ : ∃ e, intIndex table (c - 1) = some e := by
      rw [intIndex, if_pos (by omega)]
      exact ⟨_, List.get?_eq_get hidx⟩
    rw [get2_eq lu s0 s1 hsh j i hj hi, hx, Option.some_bind, hf, he,
      Option.some_bind, hVs]
    simp only [hx, Option.getD_some, hf, he, Option.map_some']
  have hinner : ∀ j, j < s0 →
      ((List.range s1).mapM fun i =>
        (lu.get? [j, i]).bind fun code =>
        (intIndex table (f2i code - 1)).bind fun cat =>
        some (toVal cat)) = some ((List.range s1).map fun i => Vs j i) := by
    intro j hj
    apply mapM_eq_some_map
    intro i hi
    exact hbody j i hj (List.mem_range.mp hi)
  have houter : ((List.range s0).mapM fun j => (List.range s1).mapM fun i =>
      (lu.get? [j, i]).bind fun code =>
      (intIndex table (f2i code - 1)).bind fun cat =>
      some (toVal cat)) =
      some ((List.range s0).map fun j =>
        (List.range s1).map fun i => Vs j i) := by
    apply mapM_eq_some_map
    intro j hj
    exact hinner j (List.mem_range.mp hj)
  set rows2 : List (List ℝ) := (List.range s0).map fun j =>
    (List.range s1).map fun i => Vs j i with hrows2
  have huni : ∀ r ∈ rows2, r.length = s1 := by
    intro r hr
    obtain ⟨j, _, hfj⟩ := List.mem_map.mp hr
    subst hfj
    rw [List.length_map, List.length_range]
  refine ⟨rows2, houter, ?_, ?_⟩
  · rw [join_length_of_uniform s1 rows2 huni, hrows2, List.length_map,
      List.length_range]
  · intro k c hk hc1 hcN
    have hkfl : k < lu.elements.length := by
      by_contra hcon
      rw [List.get?_eq_none.mpr (by omega)] at hk
      cases hk
    have hklen : k < s0 * s1 := by omega
    have hs1 : 0 < s1 := by
      rcases Nat.eq_zero_or_pos s1 with h | h
      · rw [h, Nat.mul_zero] at hklen
        omega
      · exact h
    have hj : k / s1 < s0 := (Nat.div_lt_iff_lt_mul hs1).mpr hklen
    have hi : k % s1 < s1 := Nat.mod_lt _ hs1
    have hk2 : k / s1 * s1 + k % s1 = k := by
      rw [Nat.mul_comm]
      exact Nat.div_add_mod k s1
    have hget := join_get?_of_uniform s1 rows2 huni (k / s1) (k % s1) hi
    rw [hk2] at hget
    rw [hget, hrows2, List.get?_map, List.get?_range hj]
    simp only [Option.map_some', Option.some_bind]
    rw [List.get?_map, List.get?_range hi]
    simp only [Option.map_some']
    have hf : f2i ((c : ℝ)) = c := by
      rw [f2i_intCast, if_pos (by omega)]
    have hidx : (c - 1).toNat < table.length := by omega
    obtain ⟨e, he⟩ : ∃ e, intIndex table (c - 1) = some e := by
      rw [intIndex, if_pos (by omega)]
      exact ⟨_, List.get?_eq_get hidx⟩
    rw [hVs]
    simp only [hk2, hk, Option.getD_some, hf, he, Option.map_some']

/-- C6: on a land-use grid whose every cell is a valid 1-based integer code
(1 ≤ code ≤ 40), the three remapper pulls return grids of the same shape
whose every cell holds the table entry at index code − 1, through
NLCDseinfeld, NLCDwesely and NLCDz0 respectively. -/
theorem C6_valid_codes_remap (lu : DenseArray ℝ) (s0 s1 : Nat)
    (hsh : lu.shape = [s0, s1]) (hwf : lu.WellFormed)
    (hcodes : ∀ x ∈ lu.elements, ∃ c : Int, x = (c : ℝ) ∧ 1 ≤ c ∧ c ≤ 40) :
    ∃ os ow oz : DenseArray ℝ,
      cmaqSeinfeldLandUse (.ok lu) = some (.ok os) ∧ os.shape = lu.shape ∧
      cmaqWeselyLandUse (.ok lu) = some (.ok ow) ∧ ow.shape = lu.shape ∧
      cmaqZ0 (.ok lu) = some (.ok oz) ∧ oz.shape = lu.shape ∧
      ∀ k c, lu.elements.get? k = some ((c : Int) : ℝ) → 1 ≤ c → c ≤ 40 →
        os.elements.get? k =
          (intIndex NLCDseinfeld (c - 1)).map (fun cat => ((cat.val : ℝ))) ∧
        ow.elements.get? k =
          (intIndex NLCDwesely (c - 1)).map (fun cat => ((cat.val : ℝ))) ∧
        oz.elements.get? k =
          (intIndex NLCDz0 (c - 1)).map (fun q : ℚ => ((q : ℝ))) := by
  have hwf' : lu.elements.length = lu.shape.prod := hwf
  have h0get : lu.shape.get? 0 = some s0 := by rw [hsh]; rfl
  have h1get : lu.shape.get? 1 = some s1 := by rw [hsh]; rfl
  have hcS : ∀ x ∈ lu.elements, ∃ c : Int, x = (c : ℝ) ∧ 1 ≤ c ∧
      c ≤ (NLCDseinfeld.length : Int) := by
    intro x hx
    obtain ⟨c, h1, h2, h3⟩ := hcodes x hx
    refine ⟨c, h1, h2, ?_⟩
    rw [show NLCDseinfeld.length = 40 from rfl]
    exact_mod_cast h3
  have hcW : ∀ x ∈ lu.elements, ∃ c : Int, x = (c : ℝ) ∧ 1 ≤ c ∧
      c ≤ (NLCDwesely.length : Int) := by
    intro x hx
    obtain ⟨c, h1, h2, h3⟩ := hcodes x hx
    refine ⟨c, h1, h2, ?_⟩
    rw [show NLCDwesely.length = 40 from rfl]
    exact_mod_cast h3
  obtain ⟨rowsS, hmapS, hlenS, hcellS⟩ :=
    remap_loop_spec NLCDseinfeld (fun cat => ((cat.val : ℝ))) lu s0 s1 hsh
      hwf hcS
  obtain ⟨rowsW, hmapW, hlenW, hcellW⟩ :=
    remap_loop_spec NLCDwesely (fun cat => ((cat.val : ℝ))) lu s0 s1 hsh
      hwf hcW
  set Fz : Nat → ℝ → ℝ := fun _j x =>
    ((intIndex NLCDz0 (f2i x - 1)).map fun z => ((z : ℚ) : ℝ)).getD 0
    with hFz
  have hbodyz : ∀ j x, lu.elements.get? j = some x →
      ((intIndex NLCDz0 (f2i x - 1)).map fun z => ((z : ℚ) : ℝ)) =
        some (Fz (0 + j) x) := by
    intro j x hx
    obtain ⟨c, hxc, hc1, hcN⟩ := hcodes x (List.get?_mem hx)
    subst hxc
    have hf : f2i ((c : ℝ)) = c := by
      rw [f2i_intCast, if_pos (by omega)]
    have hidx : (c - 1).toNat < NLCDz0.length := by
      rw [show NLCDz0.length = 40 from rfl]
      omega
    obtain ⟨e, he⟩ : ∃ e, intIndex NLCDz0 (c - 1) = some e := by
      rw [intIndex, if_pos (by omega)]
      exact ⟨_, List.get?_eq_get hidx⟩
    simp only [hFz, hf, he, Option.map_some', Option.getD_some]
  have hlen0z : 0 + lu.elements.length ≤
      (List.replicate lu.shape.prod (0:ℝ)).length := by
    rw [List.length_replicate]
    omega
  have hrunz := forRangeSet_eq_some
    (fun _i lu2 => (intIndex NLCDz0 (f2i lu2 - 1)).map fun z => ((z : ℚ) : ℝ))
    Fz lu.elements 0 (List.replicate lu.shape.prod (0:ℝ)) hbodyz hlen0z
  have hdropz : (List.replicate lu.shape.prod (0:ℝ)).drop
      (0 + lu.elements.length) = [] := by
    apply List.drop_eq_nil_of_le
    rw [List.length_replicate]
    omega
  rw [List.take_zero, hdropz, List.append_nil, List.nil_append] at hrunz
  refine ⟨⟨lu.shape, rowsS.join⟩, ⟨lu.shape, rowsW.join⟩,
    ⟨lu.shape, lu.elements.mapIdx fun j x => Fz (0 + j) x⟩,
    ?_, rfl, ?_, rfl, ?_, rfl, ?_⟩
  · show (cmaqSeinfeldGrid lu).map Except.ok = _
    rw [cmaqSeinfeldGrid, h0get, Option.some_bind, h1get, Option.some_bind,
      hmapS, Option.some_bind, Option.map_some']
  · show (cmaqWeselyGrid lu).map Except.ok = _
    rw [cmaqWeselyGrid, h0get, Option.some_bind, h1get, Option.some_bind,
      hmapW, Option.some_bind, Option.map_some']
  · show (cmaqZ0Grid lu).map Except.ok = _
    rw [cmaqZ0Grid]
    simp only [ZerosDense]
    rw [hrunz]
    simp only [Option.map_some']
  · intro k c hk hc1 hc40
    refine ⟨?_, ?_, ?_⟩
    · exact hcellS k c hk hc1
        (by rw [show NLCDseinfeld.length = 40 from rfl]; exact_mod_cast hc40)
    · exact hcellW k c hk hc1
        (by rw [show NLCDwesely.length = 40 from rfl]; exact_mod_cast hc40)
    · show (lu.elements.mapIdx fun j x => Fz (0 + j) x).get? k = _
      rw [get?_mapIdx, hk, Option.map_some']
      have hf : f2i ((c : ℝ)) = c := by
        rw [f2i_intCast, if_pos (by omega)]
      have hidx : (c - 1).toNat < NLCDz0.length := by
        rw [show NLCDz0.length = 40 from rfl]
        omega
      obtain ⟨e, he⟩ : ∃ e, intIndex NLCDz0 (c - 1) = some e := by
        rw [intIndex, if_pos (by omega)]
        exact ⟨_, List.get?_eq_get hidx⟩
      simp only [hFz, hf, he, Option.map_some', Option.getD_some]

/-- C6 witness: the remap theorem applied at a concrete one-cell grid
holding code 5. -/
theorem C6_witness :
    ∃ os ow oz : DenseArray ℝ,
      cmaqSeinfeldLandUse
          (.ok (⟨[1, 1], [(((5:Int)) : ℝ)]⟩ : DenseArray ℝ)) =
        some (.ok os) ∧
      os.shape = (⟨[1, 1], [(((5:Int)) : ℝ)]⟩ : DenseArray ℝ).shape ∧
      cmaqWeselyLandUse
          (.ok (⟨[1, 1], [(((5:Int)) : ℝ)]⟩ : DenseArray ℝ)) =
        some (.ok ow) ∧
      ow.shape = (⟨[1, 1], [(((5:Int)) : ℝ)]⟩ : DenseArray ℝ).shape ∧
      cmaqZ0 (.ok (⟨[1, 1], [(((5:Int)) : ℝ)]⟩ : DenseArray ℝ)) =
        some (.ok oz) ∧
      oz.shape = (⟨[1, 1], [(((5:Int)) : ℝ)]⟩ : DenseArray ℝ).shape ∧
      ∀ k c,
        (⟨[1, 1], [(((5:Int)) : ℝ)]⟩ : DenseArray ℝ).elements.get? k =
          some ((c : Int) : ℝ) → 1 ≤ c → c ≤ 40 →
        os.elements.get? k =
          (intIndex NLCDseinfeld (c - 1)).map (fun cat => ((cat.val : ℝ))) ∧
        ow.elements.get? k =
          (intIndex NLCDwesely (c - 1)).map (fun cat => ((cat.val : ℝ))) ∧
        oz.elements.get? k =
          (intIndex NLCDz0 (c - 1)).map (fun q : ℚ => ((q : ℝ))) :=
  C6_valid_codes_remap ⟨[1, 1], [(((5:Int)) : ℝ)]⟩ 1 1 rfl rfl
    (fun x hx => ⟨5, by simpa using hx, by norm_num, by norm_num⟩)

theorem intIndex_f2i_bad {β : Type} (table : List β) (hlen : table.length = 40)
    (c : Int) (hbad : c ≤ 0 ∨ 40 < c) :
    intIndex table (f2i ((c : ℝ)) - 1) = none := by
  rw [f2i_intCast]
  by_cases h0c : 0 ≤ c
  · rw [if_pos h0c]
    apply intIndex_eq_none_of_bad
    rcases hbad with hb | hb
    · left
      omega
    · right
      rw [hlen]
      omega
  · rw [if_neg h0c]
    apply intIndex_eq_none_of_bad
    left
    omega

/-- C3 counterexample: a land-use grid holding the out-of-range code 0, on
which the Seinfeld remapper pull produces no result at all (the table
indexing panics), so no LookupRangeError error value is returned to the
caller. -/
theorem C3_counterexample :
    cmaqSeinfeldLandUse (.ok (⟨[1, 1], [(0:ℝ)]⟩ : DenseArray ℝ)) = none := by
  have hf : f2i ((0:ℝ)) = (0 : Int) := by
    have h0 : ((0:Int) : ℝ) = (0:ℝ) := by norm_num
    rw [← h0, f2i_intCast]
    norm_num
  have hbad : intIndex NLCDseinfeld ((0:Int) - 1) = none :=
    intIndex_eq_none_of_bad _ _ (Or.inl (by norm_num))
  have hbody : (((⟨[1, 1], [(0:ℝ)]⟩ : DenseArray ℝ).get? [0, 0]).bind
      fun code => (intIndex NLCDseinfeld (f2i code - 1)).bind
      fun cat => some ((cat.val : ℝ))) = none := by
    rw [show (⟨[1, 1], [(0:ℝ)]⟩ : DenseArray ℝ).get? [0, 0] = some (0:ℝ)
        from rfl,
      Option.some_bind, hf, hbad, Option.none_bind]
  have hinner : ((List.range 1).mapM fun i =>
      ((⟨[1, 1], [(0:ℝ)]⟩ : DenseArray ℝ).get? [0, i]).bind fun code =>
      (intIndex NLCDseinfeld (f2i code - 1)).bind fun cat =>
      some ((cat.val : ℝ))) = none :=
    mapM_eq_none _ _ 0 (by simp) hbody
  have houter : ((List.range 1).mapM fun j => (List.range 1).mapM fun i =>
      ((⟨[1, 1], [(0:ℝ)]⟩ : DenseArray ℝ).get? [j, i]).bind fun code =>
      (intIndex NLCDseinfeld (f2i code - 1)).bind fun cat =>
      some ((cat.val : ℝ))) = none :=
    mapM_eq_none _ _ 0 (by simp) hinner
  have hgrid : cmaqSeinfeldGrid (⟨[1, 1], [(0:ℝ)]⟩ : DenseArray ℝ) = none := by
    rw [cmaqSeinfeldGrid,
      show (⟨[1, 1], [(0:ℝ)]⟩ : DenseArray ℝ).shape.get? 0 = some 1 from rfl,
      Option.some_bind,
      show (⟨[1, 1], [(0:ℝ)]⟩ : DenseArray ℝ).shape.get? 1 = some 1 from rfl,
      Option.some_bind, houter, Option.none_bind]
  show (cmaqSeinfeldGrid (⟨[1, 1], [(0:ℝ)]⟩ : DenseArray ℝ)).map Except.ok =
    none
  rw [hgrid]
  rfl

/-- C3 amended: on a well-formed land-use grid holding some cell whose
integer code is 0, negative, or greater than 40, each remapper pull fails by
an index-out-of-range panic that aborts the pull: no grid with a default or
clamped value is produced, and no error value is returned either. -/
theorem C3_out_of_range_panics (lu : DenseArray ℝ) (s0 s1 : Nat)
    (hsh : lu.shape = [s0, s1]) (hwf : lu.WellFormed)
    (k : Nat) (c : Int) (hk : lu.elements.get? k = some ((c : Int) : ℝ))
    (hbad : c ≤ 0 ∨ 40 < c) :
    cmaqSeinfeldLandUse (.ok lu) = none ∧
    cmaqWeselyLandUse (.ok lu) = none ∧
    cmaqZ0 (.ok lu) = none := by
  have hwf' : lu.elements.length = lu.shape.prod := hwf
  have h0get : lu.shape.get? 0 = some s0 := by rw [hsh]; rfl
  have h1get : lu.shape.get? 1 = some s1 := by rw [hsh]; rfl
  have hlen : lu.elements.length = s0 * s1 := by
    rw [hwf', hsh, shape_prod_two]
  have hkfl : k < lu.elements.length := by
    by_contra hcon
    rw [List.get?_eq_none.mpr (by omega)] at hk
    cases hk
  have hklen : k < s0 * s1 := by omega
  have hs1 : 0 < s1 := by
    rcases Nat.eq_zero_or_pos s1 with h | h
    · rw [h, Nat.mul_zero] at hklen
      omega
    · exact h
  have hj : k / s1 < s0 := (Nat.div_lt_iff_lt_mul hs1).mpr hklen
  have hi : k % s1 < s1 := Nat.mod_lt _ hs1
  have hk2 : k / s1 * s1 + k % s1 = k := by
    rw [Nat.mul_comm]
    exact Nat.div_add_mod k s1
  have hcell : lu.get? [k / s1, k % s1] = some ((c : Int) : ℝ) := by
    rw [get2_eq lu s0 s1 hsh _ _ hj hi, hk2]
    exact hk
  refine ⟨?_, ?_, ?_⟩
  · have hbody : ((lu.get? [k / s1, k % s1]).bind fun code =>
        (intIndex NLCDseinfeld (f2i code - 1)).bind fun cat =>
        some ((cat.val : ℝ))) = none := by
      rw [hcell, Option.some_bind, intIndex_f2i_bad NLCDseinfeld rfl c hbad,
        Option.none_bind]
    have hinner : ((List.range s1).mapM fun i =>
        (lu.get? [k / s1, i]).bind fun code =>
        (intIndex NLCDseinfeld (f2i code - 1)).bind fun cat =>
        some ((cat.val : ℝ))) = none :=
      mapM_eq_none _ _ (k % s1) (List.mem_range.mpr hi) hbody
    have houter : ((List.range s0).mapM fun j =>
        (List.range s1).mapM fun i =>
        (lu.get? [j, i]).bind fun code =>
        (intIndex NLCDseinfeld (f2i code - 1)).bind fun cat =>
        some ((cat.val : ℝ))) = none :=
      mapM_eq_none _ _ (k / s1) (List.mem_range.mpr hj) hinner
    have hgrid : cmaqSeinfeldGrid lu = none := by
      rw [cmaqSeinfeldGrid, h0get, Option.some_bind, h1get, Option.some_bind,
        houter, Option.none_bind]
    show (cmaqSeinfeldGrid lu).map Except.ok = none
    rw [hgrid]
    rfl
  · have hbody : ((lu.get? [k / s1, k % s1]).bind fun code =>
        (intIndex NLCDwesely (f2i code - 1)).bind fun cat =>
        some ((cat.val : ℝ))) = none := by
      rw [hcell, Option.some_bind, intIndex_f2i_bad NLCDwesely rfl c hbad,
        Option.none_bind]
    have hinner : ((List.range s1).mapM fun i =>
        (lu.get? [k / s1, i]).bind fun code =>
        (intIndex NLCDwesely (f2i code - 1)).bind fun cat =>
        some ((cat.val : ℝ))) = none :=
      mapM_eq_none _ _ (k % s1) (List.mem_range.mpr hi) hbody
    have houter : ((List.range s0).mapM fun j =>
        (List.range s1).mapM fun i =>
        (lu.get? [j, i]).bind fun code =>
        (intIndex NLCDwesely (f2i code - 1)).bind fun cat =>
        some ((cat.val : ℝ))) = none :=
      mapM_eq_none _ _ (k / s1) (List.mem_range.mpr hj) hinner
    have hgrid : cmaqWeselyGrid lu = none := by
      rw [cmaqWeselyGrid, h0get, Option.some_bind, h1get, Option.some_bind,
        houter, Option.none_bind]
    show (cmaqWeselyGrid lu).map Except.ok = none
    rw [hgrid]
    rfl
  · have hbodyz : ((intIndex NLCDz0
        (f2i (((c : Int) : ℝ)) - 1)).map fun z => ((z : ℚ) : ℝ)) = none := by
      rw [intIndex_f2i_bad NLCDz0 rfl c hbad]
      rfl
    have hloop : forRangeSet
        (fun _i lu2 => (intIndex NLCDz0 (f2i lu2 - 1)).map
          fun z => ((z : ℚ) : ℝ))
        0 lu.elements (List.replicate lu.shape.prod (0:ℝ)) = none :=
      forRangeSet_eq_none _ lu.elements 0 _ k _ hk hbodyz
    have hgrid : cmaqZ0Grid lu = none := by
      rw [cmaqZ0Grid]
      simp only [ZerosDense]
      rw [hloop]
      rfl
    show (cmaqZ0Grid lu).map Except.ok = none
    rw [hgrid]
    rfl

/-- C3 witness: the amended theorem applied at a concrete one-cell grid
holding code 0. -/
theorem C3_witness :
    cmaqSeinfeldLandUse (.ok (⟨[1, 1], [(((0:Int)) : ℝ)]⟩ : DenseArray ℝ)) =
      none ∧
    cmaqWeselyLandUse (.ok (⟨[1, 1], [(((0:Int)) : ℝ)]⟩ : DenseArray ℝ)) =
      none ∧
    cmaqZ0 (.ok (⟨[1, 1], [(((0:Int)) : ℝ)]⟩ : DenseArray ℝ)) = none :=
  C3_out_of_range_panics ⟨[1, 1], [(((0:Int)) : ℝ)]⟩ 1 1 rfl rfl 0 0 rfl
    (Or.inl (by norm_num))
